import Mathlib

/-! Spider `httputil`: a shallow embedding of the fetch engine.

The Go package `httputil` (`src/httputil/http.go`, `src/httputil/util.go`) is
embedded as pure Lean functions.  Everything the package obtains from the Go
standard library or from the network (URL parsing, the client pipeline, the
transport round trip, `Set-Cookie` parsing, the gzip and flate readers, cookie
sanitising) is a field of the structure `World`, so every theorem holds for
every behaviour of those collaborators.  Byte slices are lists of naturals,
Go `int` is `Int`, a nil pointer or nil map is `none`.
Log output is not modelled: it has no influence on any returned value.
-/

namespace Httputil

/-! ## Data model -/

/-- Byte slices, and Go strings used as byte strings (`HttpResponse.Html`). -/
abbrev Bytes := List Nat

def KDefaultHttpRespStatus : Int := 1000
def KReadTimeOut : Int := 1001
def KBodyTooBig : Int := 1002
def KUpexpectedErr : Int := 1003
def KNewRequestErr : Int := 1004
def KDoRequestErr : Int := 1005
def KResolveTCPAddrTimeout : Int := 1006

def kWebUserAgent : String :=
  "Mozilla/5.0 (Macintosh; Intel Mac OS X 10_10_0) AppleWebKit/537.36 (KHTML, like Gecko) Chrome/38.0.2125.122 Safari/537.36"

def kWapUserAgent : String :=
  "Mozilla/5.0 (iPad; U; CPU OS 3_2 like Mac OS X; en-us) AppleWebKit/531.21.10 (KHTML, like Gecko) Version/4.0.4 Mobile/7B334b Safari/531.21.10"

/-! ### `http.Header`

A header is a finite map from canonical keys to value lists, kept as an
association list with at most one entry per key. -/

/-- The bytes `net/textproto` accepts in a header field name (RFC 7230 token). -/
def validHeaderFieldByte (c : Char) : Bool :=
  c.isAlphanum || "!#$%&*+-.^_|~".data.contains c || c.toNat == 39 || c.toNat == 96

/-- The rewriting loop of `textproto.CanonicalMIMEHeaderKey`: upper case at the
start and after each dash, lower case elsewhere. -/
def canonicalLoop : Bool → List Char → List Char
  | _, [] => []
  | upper, c :: cs =>
    let d := if upper && c.isLower then c.toUpper
             else if !upper && c.isUpper then c.toLower else c
    d :: canonicalLoop (d == '-') cs

/-- The function `textproto.CanonicalMIMEHeaderKey`: a key holding a byte that is
not a token byte is returned unchanged. -/
def CanonicalMIMEHeaderKey (s : String) : String :=
  if s.data.all validHeaderFieldByte then ⟨canonicalLoop true s.data⟩ else s

abbrev Header := List (String × List String)

namespace Header

/-- The map index `h[ck]` at an already canonical key; a missing key gives `nil`. -/
def values : Header → String → List String
  | [], _ => []
  | (k, vs) :: rest, ck => if k = ck then vs else values rest ck

/-- The map assignment `h[ck] = vs`. -/
def put (h : Header) (ck : String) (vs : List String) : Header :=
  (ck, vs) :: h.filter (fun e => e.1 ≠ ck)

/-- The method `Header.Get`: first value under the canonical key, or `""`. -/
def Get (h : Header) (key : String) : String :=
  match h.values (CanonicalMIMEHeaderKey key) with
  | [] => ""
  | v :: _ => v

/-- The method `Header.Set`: replace the values under the canonical key. -/
def Set (h : Header) (key value : String) : Header :=
  h.put (CanonicalMIMEHeaderKey key) [value]

/-- The method `Header.Add`: append to the values under the canonical key. -/
def Add (h : Header) (key value : String) : Header :=
  h.put (CanonicalMIMEHeaderKey key) (h.values (CanonicalMIMEHeaderKey key) ++ [value])

end Header

/-- The function `strings.Contains`. -/
def stringsContains (s substr : String) : Bool :=
  s.data.tails.any (fun t => substr.data.isPrefixOf t)

/-- The function `strings.ToLower`, on ASCII letters. -/
def stringsToLower (s : String) : String := ⟨s.data.map Char.toLower⟩

/-- The function `bytes.TrimPrefix` for the two-byte prefix `0x78 0x9c`. -/
def trimZlibPrefix : Bytes → Bytes
  | 0x78 :: 0x9c :: rest => rest
  | html => html

/-! ### Requests, responses, clients -/

/-- The type `http.Cookie`: the fields the spec asks to serialise. -/
structure Cookie where
  Name : String
  Value : String
  Path : String
  Domain : String
  Expires : String
deriving DecidableEq, Repr

/-- A parsed `url.URL`: the text it was parsed from and its host part. -/
structure URL where
  Raw : String
  Host : String
deriving DecidableEq, Repr

/-- The type `http.Request`, as far as the package touches it. -/
structure Request where
  Method : String
  URL : URL
  Host : String
  Header : Header
  Body : Option String
deriving DecidableEq, Repr

/-- The type `http.Response`.  `Body` holds the bytes `ioutil.ReadAll` obtains
from the body stream and `BodyErr` the error it reports after them, if any. -/
structure Response where
  StatusCode : Int
  Header : Header
  Body : Bytes
  BodyErr : Option String
deriving DecidableEq, Repr

/-- The struct `HttpResponse`; a nil map or slice is `none`. -/
structure HttpResponse where
  Status : Int
  Html : Bytes
  Header : Option Header
  Cookies : Option (List Cookie)
deriving DecidableEq, Repr

/-- The `Dial` closure of a transport: which of the two closures of `util.go`
it is, with the values it captured. -/
inductive DialPolicy where
  | dialTimeout (timeOutSeconds : Int)
  | dialFromIp (timeOutSeconds : Int) (ip : String)
deriving DecidableEq, Repr

/-- The fields of `http.Transport` that `util.go` sets. -/
structure Transport where
  Dial : DialPolicy
  DisableKeepAlives : Bool
  ResponseHeaderTimeout : Int
  InsecureSkipVerify : Bool
  Proxy : Option URL
deriving DecidableEq, Repr

/-- The values `CheckRedirect` takes in `util.go`. -/
inductive RedirectHook where
  | noRedirect
deriving DecidableEq, Repr

/-- The type `http.Client`: transport, redirect hook (`none` is the default
follow policy) and whether a cookie jar is installed. -/
structure Client where
  Transport : Transport
  CheckRedirect : Option RedirectHook
  Jar : Bool
deriving DecidableEq, Repr

/-- The struct `HttpUtil`. -/
structure HttpUtil where
  client : Client
  ip : String
deriving DecidableEq, Repr

/-- What `client.Do` and `Transport.RoundTrip` return: a response and a nil
error, or an error (with which `client.Do` may still hand back a response,
when `CheckRedirect` fails). -/
inductive DoResult where
  | ok (response : Response)
  | err (msg : String) (response : Option Response)
deriving DecidableEq, Repr

/-- A run-time panic of the Go program. -/
inductive GoPanic where
  | nilPointerDereference
deriving DecidableEq, Repr

/-- The observable steps of one fetch, in order. -/
inductive Event where
  | clientDo (client : Client) (request : Request)
  | roundTrip (transport : Transport) (request : Request)
  | readBody
  | closeBody
deriving DecidableEq, Repr

deriving instance DecidableEq for Except

/-- The collaborators outside the package: standard-library functions and the
network.  A gzip reader is represented by what `ioutil.ReadAll` obtains from
it: the decoded bytes and the error reported after them, if any. -/
structure World where
  /-- The function `url.Parse`. -/
  urlParse : String → Except String URL
  /-- The method `(*http.Client).Do`: cookie jar and redirect policy applied. -/
  clientDo : Client → Request → DoResult
  /-- The method `(*http.Transport).RoundTrip`: one raw round trip. -/
  roundTrip : Transport → Request → DoResult
  /-- The method `(*http.Response).Cookies`, reading the `Set-Cookie` headers. -/
  readSetCookies : Header → List Cookie
  /-- The function `gzip.NewReader` followed by `ioutil.ReadAll`. -/
  gzipNewReader : Bytes → Except String (Bytes × Option String)
  /-- The function `flate.NewReader` (which cannot fail) followed by `ioutil.ReadAll`. -/
  flateReadAll : Bytes → Bytes × Option String
  /-- The text `name=value` that `AddCookie` writes for a cookie, sanitised. -/
  cookieString : Cookie → String
  /-- The method `url.Values.Encode`. -/
  valuesEncode : List (String × String) → String

/-! ## `util.go`: client constructors -/

def NewHttpClient (timeOutSeconds : Int) : Client :=
  { Transport :=
      { Dial := .dialTimeout timeOutSeconds
        DisableKeepAlives := true
        ResponseHeaderTimeout := timeOutSeconds
        InsecureSkipVerify := true
        Proxy := none }
    CheckRedirect := none
    Jar := false }

def NewNoRedirectHttpClient (timeOutSeconds : Int) : Client :=
  let ret := NewHttpClient timeOutSeconds
  { ret with CheckRedirect := some .noRedirect }

def SetCookieJar (client : Client) : Client :=
  { client with Jar := true }

def NewHttpClientWithIp (timeOutSeconds : Int) (ip : String) : Client :=
  { Transport :=
      { Dial := .dialFromIp timeOutSeconds ip
        DisableKeepAlives := true
        ResponseHeaderTimeout := timeOutSeconds
        InsecureSkipVerify := true
        Proxy := none }
    CheckRedirect := none
    Jar := false }

def NewNoRedirectHttpClientWithIp (timeOutSeconds : Int) (ip : String) : Client :=
  let ret := NewHttpClientWithIp timeOutSeconds ip
  { ret with CheckRedirect := some .noRedirect }

/-- Returns `none` for the nil client of the parse-failure branch. -/
def NewHttpClientWithProxy (w : World) (timeOutSeconds : Int) (proxy : String) :
    Option Client :=
  match w.urlParse proxy with
  | .error _ => none
  | .ok proxyUrl =>
    some
      { Transport :=
          { Dial := .dialTimeout timeOutSeconds
            DisableKeepAlives := true
            ResponseHeaderTimeout := timeOutSeconds
            InsecureSkipVerify := true
            Proxy := some proxyUrl }
        CheckRedirect := none
        Jar := false }

/-- The assignment `ret.CheckRedirect = noRedirect` dereferences `ret`; on the
nil pointer it panics. -/
def NewNoRedirectHttpClientWithProxy (w : World) (timeOutSeconds : Int) (proxy : String) :
    Except GoPanic (Option Client) :=
  match NewHttpClientWithProxy w timeOutSeconds proxy with
  | none => .error .nilPointerDereference
  | some ret => .ok (some { ret with CheckRedirect := some .noRedirect })

/-! ## `http.go` -/

def NewHttpResponse : HttpResponse :=
  { Status := KDefaultHttpRespStatus, Html := [], Header := none, Cookies := none }

/-- Returns `none` for the nil `*HttpUtil`. -/
def NewHttpUtil (timeOutSeconds : Int) : Option HttpUtil :=
  some { client := NewHttpClient timeOutSeconds, ip := "" }

/-- Returns `none` for the nil `*HttpUtil`. -/
def NewHttpUtilWithProxy (w : World) (proxy : String) (timeOutSeconds : Int) :
    Option HttpUtil :=
  match NewHttpClientWithProxy w timeOutSeconds proxy with
  | some client => some { client := client, ip := "" }
  | none => none

def NewHttpUtilWithIp (ip : String) (timeOutSeconds : Int) : Option HttpUtil :=
  some { client := NewHttpClientWithIp timeOutSeconds ip, ip := ip }

def GetHeaderUA (needWapUserAgent : Bool) : String :=
  if needWapUserAgent then kWapUserAgent else kWebUserAgent

def isGZHtml (resp : Response) : Bool :=
  stringsContains (Header.Get resp.Header "Content-Encoding") "gzip"

def needDeflate (resp : Response) : Bool :=
  stringsContains (Header.Get resp.Header "Content-Encoding") "deflate"

def setHeader (req : Request) (needWapUserAgent : Bool) : Request :=
  let h := Header.Set req.Header "Connection" "keep-alive"
  let h := Header.Set h "Cache-Control" "no-cache"
  let h := Header.Set h "Accept"
    "text/html,application/xhtml+xml,application/xml;q=0.9,image/webp,*/*;q=0.8"
  let h := Header.Set h "Accept-Encoding" "gzip,deflate,sdch"
  let h := Header.Set h "User-Agent" (GetHeaderUA needWapUserAgent)
  { req with Header := h }

def unGzipHtml (w : World) (html : Bytes) : Bytes :=
  match w.gzipNewReader html with
  | .error _ => html
  | .ok (content, _) =>
    -- a `ReadAll` error is logged only
    if content.length = 0 then html else content

def deflate (w : World) (html : Bytes) : Bytes :=
  let html := trimZlibPrefix html
  let (enflated, _) := w.flateReadAll html
  -- a `ReadAll` error is logged only
  if enflated.length = 0 then html else enflated

/-- The two decompression stages shared by `HttpGet` (lines 233 to 240) and
`HttpPost` (lines 315 to 322): the gzip stage, then the deflate stage. -/
def decompress (w : World) (response : Response) (htmlByte : Bytes) : Bytes :=
  let htmlByte := if isGZHtml response then unGzipHtml w htmlByte else htmlByte
  let htmlByte := if needDeflate response then deflate w htmlByte else htmlByte
  htmlByte

/-- The function `http.NewRequest`: it fails exactly when the URL does not
parse (the methods used, GET and POST, are valid). -/
def NewRequest (w : World) (method url : String) (body : Option String) :
    Except String Request :=
  match w.urlParse url with
  | .error e => .error e
  | .ok u => .ok { Method := method, URL := u, Host := u.Host, Header := [], Body := body }

/-- The method `(*http.Request).AddCookie`: all cookies go into one `Cookie` line. -/
def AddCookie (w : World) (r : Request) (c : Cookie) : Request :=
  let s := w.cookieString c
  let old := Header.Get r.Header "Cookie"
  if old ≠ "" then { r with Header := Header.Set r.Header "Cookie" (old ++ "; " ++ s) }
  else { r with Header := Header.Set r.Header "Cookie" s }

/-- Lines 171 to 191 of `HttpGet`: the request handed to the transport.  The
caller's header map is given as the list of its entries in iteration order. -/
def HttpGetRequest (w : World) (url : String) (headers : List (String × String))
    (cookies : List Cookie) (needWapUserAgent : Bool) : Except String Request :=
  match NewRequest w "GET" url none with
  | .error e => .error e
  | .ok request =>
    let request := setHeader request needWapUserAgent
    let request := headers.foldl
      (fun (request : Request) (kv : String × String) =>
        let request := { request with Header := Header.Add request.Header kv.1 kv.2 }
        let str := stringsToLower kv.1
        if str = "host" then { request with Host := kv.2 } else request)
      request
    .ok (cookies.foldl (AddCookie w) request)

/-- Lines 193 to 198 of `HttpGet`: the execution step and the event it leaves. -/
def HttpGetExecute (w : World) (httpUtil : HttpUtil) (request : Request)
    (needDirect : Bool) : DoResult × Event :=
  if needDirect then
    (w.clientDo httpUtil.client request, .clientDo httpUtil.client request)
  else
    (w.roundTrip httpUtil.client.Transport request,
      .roundTrip httpUtil.client.Transport request)

/-- The deferred close of `HttpGet`: runs when a response was obtained. -/
def deferredClose : Option Response → List Event
  | some _ => [.closeBody]
  | none => []

/-- The method `HttpGet`: the returned response and the trace of the call. -/
def HttpGet (w : World) (httpUtil : HttpUtil) (url : String)
    (headers : List (String × String)) (cookies : List Cookie)
    (needWapUserAgent needDirect : Bool) : HttpResponse × List Event :=
  let ret := NewHttpResponse
  match HttpGetRequest w url headers cookies needWapUserAgent with
  | .error _ => ({ ret with Status := KNewRequestErr }, [])
  | .ok request =>
    let (result, ev) := HttpGetExecute w httpUtil request needDirect
    -- the deferred close runs on every exit below
    match result with
    | .err _ response =>
      ({ ret with Status := KDoRequestErr }, ev :: deferredClose response)
    | .ok response =>
      let ret := { ret with Status := response.StatusCode }
      let ret := { ret with Cookies := some (w.readSetCookies response.Header) }
      let ret := { ret with Header := some response.Header }
      if ret.Status ≠ 200 then (ret, [ev, .closeBody])
      else
        match response.BodyErr with
        | some _ => ({ ret with Status := KReadTimeOut }, [ev, .readBody, .closeBody])
        | none =>
          let htmlByte := decompress w response response.Body
          let ret := if htmlByte.length = 0 then { ret with Status := KUpexpectedErr } else ret
          ({ ret with Html := htmlByte }, [ev, .readBody, .closeBody])

/-- Lines 257 to 284 of `HttpPost`: the request handed to the client. -/
def HttpPostRequest (w : World) (api : String) (headers postData : List (String × String))
    (reqCookie : List Cookie) (needWapUserAgent : Bool) : Except String Request :=
  let postDataStr := w.valuesEncode postData
  match NewRequest w "POST" api (some postDataStr) with
  | .error e => .error e
  | .ok reqest =>
    let reqest := setHeader reqest needWapUserAgent
    let reqest := { reqest with
      Header := Header.Set reqest.Header "Content-Type"
        "application/x-www-form-urlencoded; param=value" }
    let reqest := headers.foldl
      (fun (reqest : Request) (kv : String × String) =>
        { reqest with Header := Header.Set reqest.Header kv.1 kv.2 })
      reqest
    .ok (reqCookie.foldl (AddCookie w) reqest)

/-- The method `HttpPost`: the returned response and the trace of the call. -/
def HttpPost (w : World) (httpUtil : HttpUtil) (api : String)
    (headers postData : List (String × String)) (reqCookie : List Cookie)
    (needWapUserAgent : Bool) : HttpResponse × List Event :=
  let ret := NewHttpResponse
  match HttpPostRequest w api headers postData reqCookie needWapUserAgent with
  | .error _ => (ret, [])
  | .ok reqest =>
    match w.clientDo httpUtil.client reqest with
    | .err _ _ => (ret, [.clientDo httpUtil.client reqest])
    | .ok response =>
      let ev := Event.clientDo httpUtil.client reqest
      let ret := { ret with Status := response.StatusCode }
      let ret := { ret with Cookies := some (w.readSetCookies response.Header) }
      let ret := { ret with Header := some response.Header }
      if response.StatusCode ≠ 200 then (ret, [ev, .closeBody])
      else
        match response.BodyErr with
        | some _ => (ret, [ev, .readBody, .closeBody])
        | none =>
          let htmlByte := decompress w response response.Body
          let ret := if htmlByte.length = 0 then { ret with Status := KUpexpectedErr } else ret
          ({ ret with Html := htmlByte }, [ev, .readBody, .closeBody])

/-! ## A reference world

Concrete collaborators, used to run the definitions on explicit inputs.  The
two decoders implement the fragment of RFC 1951 and RFC 1952 in which every
block of the deflate data is a stored block and the gzip header has no
optional field; any other stream is reported as an error. -/

/-- One bit of the reflected CRC-32 shift register (polynomial `0xEDB88320`). -/
def crcBit (c : Nat) : Nat :=
  if c % 2 = 1 then (c / 2) ^^^ 0xEDB88320 else c / 2

def crcByte (c b : Nat) : Nat :=
  crcBit (crcBit (crcBit (crcBit (crcBit (crcBit (crcBit (crcBit (c ^^^ b))))))))

/-- The IEEE CRC-32 of a byte sequence (`hash/crc32`). -/
def crc32 (bs : Bytes) : Nat :=
  (bs.foldl crcByte 0xFFFFFFFF) ^^^ 0xFFFFFFFF

/-- A 32-bit value as four bytes, least significant first. -/
def le32 (n : Nat) : Bytes :=
  [n % 256, n / 256 % 256, n / 65536 % 256, n / 16777216 % 256]

/-- Inflate a sequence of stored blocks: the decoded bytes, the error after
them if any, and the input left after the final block. -/
def inflateStored : Nat → Bytes → Bytes → Bytes × Option String × Bytes
  | 0, _, acc => (acc, some "unexpected EOF", [])
  | _ + 1, [], acc => (acc, some "unexpected EOF", [])
  | fuel + 1, b :: rest, acc =>
    if b / 2 % 4 ≠ 0 then (acc, some "flate: corrupt input", rest)
    else
      match rest with
      | l0 :: l1 :: n0 :: n1 :: data =>
        let len := l0 + 256 * l1
        if n0 + 256 * n1 + len ≠ 65535 then (acc, some "flate: corrupt input", data)
        else if data.length < len then (acc ++ data, some "unexpected EOF", [])
        else if b % 2 = 1 then (acc ++ data.take len, none, data.drop len)
        else inflateStored fuel (data.drop len) (acc ++ data.take len)
      | _ => (acc, some "unexpected EOF", [])

/-- Reference for `flate.NewReader` followed by `ioutil.ReadAll`. -/
def refFlateReadAll (z : Bytes) : Bytes × Option String :=
  let r := inflateStored (z.length + 1) z []
  (r.1, r.2.1)

/-- The members of a gzip stream after the header of the first was accepted:
the deflate data, the trailer (CRC-32 and length of the decoded member), then
either the end of the input or the next member. -/
def gzipMembers : Nat → Bytes → Bytes → Bytes × Option String
  | 0, _, acc => (acc, some "unexpected EOF")
  | fuel + 1, z, acc =>
    match inflateStored (z.length + 1) z [] with
    | (content, some e, _) => (acc ++ content, some e)
    | (content, none, rest) =>
      match rest with
      | c0 :: c1 :: c2 :: c3 :: s0 :: s1 :: s2 :: s3 :: next =>
        if [c0, c1, c2, c3] ≠ le32 (crc32 content)
            ∨ [s0, s1, s2, s3] ≠ le32 (content.length % 4294967296) then
          (acc ++ content, some "gzip: invalid checksum")
        else
          match next with
          | [] => (acc ++ content, none)
          | 0x1f :: 0x8b :: 8 :: 0 :: _ :: _ :: _ :: _ :: _ :: _ :: body =>
            gzipMembers fuel body (acc ++ content)
          | _ => (acc ++ content, some "gzip: invalid header")
      | _ => (acc ++ content, some "unexpected EOF")

/-- Reference for `gzip.NewReader` followed by `ioutil.ReadAll`. -/
def refGzipNewReader (z : Bytes) : Except String (Bytes × Option String) :=
  match z with
  | 0x1f :: 0x8b :: 8 :: 0 :: _ :: _ :: _ :: _ :: _ :: _ :: body =>
    .ok (gzipMembers (z.length + 1) body [])
  | _ => .error "gzip: invalid header"

/-- A gzip stream holding `b` in one final stored block (`b` shorter than 65536). -/
def gzipStored (b : Bytes) : Bytes :=
  [0x1f, 0x8b, 8, 0, 0, 0, 0, 0, 0, 0xff]
    ++ [1, b.length % 256, b.length / 256, 255 - b.length % 256, 255 - b.length / 256]
    ++ b ++ le32 (crc32 b) ++ le32 b.length

/-- The text after the first `//`. -/
def afterSlashes : List Char → List Char
  | [] => []
  | [_] => []
  | c :: d :: rest => if c = '/' ∧ d = '/' then rest else afterSlashes (d :: rest)

/-- Reference for `url.Parse`: the text must not begin with a colon (a missing
scheme) and must hold no ASCII control character; the host is the text between
`//` and the next slash. -/
def refUrlParse (s : String) : Except String URL :=
  if s.data.any (fun c => c.toNat < 32 || c.toNat == 127) then
    .error "net/url: invalid control character in URL"
  else if s.data.head? = some ':' then .error "missing protocol scheme"
  else .ok { Raw := s, Host := ⟨(afterSlashes s.data).takeWhile (fun c => c != '/')⟩ }

/-- A server for the reference world: one fixed response per request path. -/
def refServer (request : Request) : DoResult :=
  if request.URL.Host = "down.example" then .err "dial tcp: connection refused" none
  else if request.URL.Raw = "http://a.example/moved" then
    .ok { StatusCode := 302, Header := [("Location", ["http://a.example/"])],
          Body := [60, 97, 62], BodyErr := none }
  else if request.URL.Raw = "http://a.example/slow" then
    .ok { StatusCode := 200, Header := [("Content-Type", ["text/html"])],
          Body := [60, 104], BodyErr := some "i/o timeout" }
  else if request.URL.Raw = "http://a.example/gzip" then
    .ok { StatusCode := 200, Header := [("Content-Encoding", ["gzip"])],
          Body := gzipStored [104, 101, 108, 108, 111], BodyErr := none }
  else if request.URL.Raw = "http://a.example/empty" then
    .ok { StatusCode := 200, Header := [], Body := [], BodyErr := none }
  else
    .ok { StatusCode := 200, Header := [("Content-Type", ["text/html"])],
          Body := [104, 105], BodyErr := none }

/-- The full pipeline of the reference world: it follows the redirect of `/moved`
when the client has no redirect hook; with the hook `noRedirect` it hands back
the redirect response together with the error of the hook.  Everything else
is one round trip. -/
def refClientDo (client : Client) (request : Request) : DoResult :=
  if request.URL.Raw = "http://a.example/moved" then
    match client.CheckRedirect with
    | none =>
      refServer { request with URL := { Raw := "http://a.example/", Host := "a.example" } }
    | some .noRedirect =>
      match refServer request with
      | .ok response => .err "don't redirect" (some response)
      | .err msg response => .err msg response
  else refServer request

/-- The reference world.  A raw round trip never follows a redirect. -/
def refWorld : World where
  urlParse := refUrlParse
  clientDo := refClientDo
  roundTrip := fun _ request => refServer request
  readSetCookies := fun h =>
    (Header.values h "Set-Cookie").map
      (fun v => { Name := v, Value := "", Path := "", Domain := "", Expires := "" })
  gzipNewReader := refGzipNewReader
  flateReadAll := refFlateReadAll
  cookieString := fun c => c.Name ++ "=" ++ c.Value
  valuesEncode := fun kvs => "&".intercalate (kvs.map (fun kv => kv.1 ++ "=" ++ kv.2))

/-- The `HttpUtil` that `NewHttpUtil 30` returns. -/
def refUtil : HttpUtil := { client := NewHttpClient 30, ip := "" }

/-- The GET request `HttpGet` builds in the reference world for a URL with the
given host, with no caller headers, no cookies and the desktop user agent. -/
def refGetRequest (raw host : String) : Request :=
  setHeader { Method := "GET", URL := { Raw := raw, Host := host }, Host := host,
              Header := [], Body := none } false

/-- A gzip stream whose single stored block holds the two bytes of `hi` and whose
trailer carries a wrong checksum. -/
def gzipBadChecksum : Bytes :=
  [0x1f, 0x8b, 8, 0, 0, 0, 0, 0, 0, 0xff, 1, 2, 0, 253, 255, 104, 105,
    0, 0, 0, 0, 2, 0, 0, 0]

/-- The values `setHeader` leaves under a canonical key of a fresh request: for
each of the five keys it sets the default value, nothing under any other key. -/
def defaultValues (needWapUserAgent : Bool) (ck : String) : List String :=
  if ck = "Connection" then ["keep-alive"]
  else if ck = "Cache-Control" then ["no-cache"]
  else if ck = "Accept" then
    ["text/html,application/xhtml+xml,application/xml;q=0.9,image/webp,*/*;q=0.8"]
  else if ck = "Accept-Encoding" then ["gzip,deflate,sdch"]
  else if ck = "User-Agent" then [GetHeaderUA needWapUserAgent]
  else []

/-- A cookie of the reference world. -/
def refCookie : Cookie :=
  { Name := "b", Value := "2", Path := "", Domain := "", Expires := "" }

/-! ## Theorems -/

/-! ### Header maps -/

theorem values_filter_ne (h : Header) (k ck : String) (hne : ck ≠ k) :
    Header.values (h.filter (fun e => e.1 ≠ k)) ck = Header.values h ck := by
  induction h with
  | nil => rfl
  | cons e rest ih =>
    obtain ⟨k1, vs⟩ := e
    by_cases h1 : k1 = k
    · have hk : k1 ≠ ck := by
        rw [h1]
        exact fun h => hne h.symm
      rw [List.filter_cons_of_neg (by simpa using h1), ih]
      simp [Header.values, hk]
    · rw [List.filter_cons_of_pos (by simpa using h1)]
      simp only [Header.values]
      rw [ih]

theorem values_put_same (h : Header) (k : String) (vs : List String) :
    Header.values (Header.put h k vs) k = vs := by
  simp [Header.put, Header.values]

theorem values_put_other (h : Header) (k ck : String) (vs : List String) (hne : ck ≠ k) :
    Header.values (Header.put h k vs) ck = Header.values h ck := by
  have hk : k ≠ ck := fun h => hne h.symm
  simp only [Header.put, Header.values, hk, if_false]
  exact values_filter_ne h k ck hne

/-- The header loop of `HttpGet` changes the header as a plain fold of `Add`. -/
theorem get_loop_header (headers : List (String × String)) (request : Request) :
    (headers.foldl
      (fun (request : Request) (kv : String × String) =>
        let request := { request with Header := Header.Add request.Header kv.1 kv.2 }
        let str := stringsToLower kv.1
        if str = "host" then { request with Host := kv.2 } else request)
      request).Header
      = headers.foldl (fun h kv => Header.Add h kv.1 kv.2) request.Header := by
  induction headers generalizing request with
  | nil => rfl
  | cons kv rest ih =>
    simp only [List.foldl_cons]
    rw [ih]
    split <;> rfl

/-- The header loop of `HttpPost` changes the header as a plain fold of `Set`. -/
theorem post_loop_header (headers : List (String × String)) (reqest : Request) :
    (headers.foldl
      (fun (reqest : Request) (kv : String × String) =>
        { reqest with Header := Header.Set reqest.Header kv.1 kv.2 })
      reqest).Header
      = headers.foldl (fun h kv => Header.Set h kv.1 kv.2) reqest.Header := by
  induction headers generalizing reqest with
  | nil => rfl
  | cons kv rest ih =>
    simp only [List.foldl_cons]
    rw [ih]

theorem fold_add_other (headers : List (String × String)) (h : Header) (ck : String)
    (hnot : ck ∉ headers.map (fun kv => CanonicalMIMEHeaderKey kv.1)) :
    Header.values (headers.foldl (fun h kv => Header.Add h kv.1 kv.2) h) ck
      = Header.values h ck := by
  induction headers generalizing h with
  | nil => rfl
  | cons kv rest ih =>
    simp only [List.map_cons, List.mem_cons, not_or] at hnot
    simp only [List.foldl_cons]
    rw [ih _ hnot.2]
    exact values_put_other h _ ck _ hnot.1

theorem fold_set_other (headers : List (String × String)) (h : Header) (ck : String)
    (hnot : ck ∉ headers.map (fun kv => CanonicalMIMEHeaderKey kv.1)) :
    Header.values (headers.foldl (fun h kv => Header.Set h kv.1 kv.2) h) ck
      = Header.values h ck := by
  induction headers generalizing h with
  | nil => rfl
  | cons kv rest ih =>
    simp only [List.map_cons, List.mem_cons, not_or] at hnot
    simp only [List.foldl_cons]
    rw [ih _ hnot.2]
    exact values_put_other h _ ck _ hnot.1

theorem fold_add_entry (headers : List (String × String)) (h : Header) (k v : String)
    (hnodup : (headers.map (fun kv => CanonicalMIMEHeaderKey kv.1)).Nodup)
    (hmem : (k, v) ∈ headers) :
    Header.values (headers.foldl (fun h kv => Header.Add h kv.1 kv.2) h)
        (CanonicalMIMEHeaderKey k)
      = Header.values h (CanonicalMIMEHeaderKey k) ++ [v] := by
  induction headers generalizing h with
  | nil => cases hmem
  | cons kv rest ih =>
    simp only [List.map_cons, List.nodup_cons] at hnodup
    simp only [List.foldl_cons]
    rcases List.mem_cons.mp hmem with heq | hrest
    · subst heq
      rw [fold_add_other rest _ _ hnodup.1]
      exact values_put_same h _ _
    · rw [ih _ hnodup.2 hrest]
      have hne : CanonicalMIMEHeaderKey k ≠ CanonicalMIMEHeaderKey kv.1 := by
        intro heq
        apply hnodup.1
        rw [← heq]
        exact List.mem_map.mpr ⟨(k, v), hrest, rfl⟩
      rw [Header.Add, values_put_other h _ _ _ hne]

theorem fold_set_entry (headers : List (String × String)) (h : Header) (k v : String)
    (hnodup : (headers.map (fun kv => CanonicalMIMEHeaderKey kv.1)).Nodup)
    (hmem : (k, v) ∈ headers) :
    Header.values (headers.foldl (fun h kv => Header.Set h kv.1 kv.2) h)
        (CanonicalMIMEHeaderKey k) = [v] := by
  induction headers generalizing h with
  | nil => cases hmem
  | cons kv rest ih =>
    simp only [List.map_cons, List.nodup_cons] at hnodup
    simp only [List.foldl_cons]
    rcases List.mem_cons.mp hmem with heq | hrest
    · subst heq
      rw [fold_set_other rest _ _ hnodup.1]
      exact values_put_same h _ _
    · exact ih _ hnodup.2 hrest

theorem canonical_cookie : CanonicalMIMEHeaderKey "Cookie" = "Cookie" := by decide

/-- Attaching cookies leaves every key other than `Cookie` as it was. -/
theorem addCookie_other (w : World) (cookies : List Cookie) (r : Request) (ck : String)
    (hne : ck ≠ "Cookie") :
    Header.values (cookies.foldl (AddCookie w) r).Header ck = Header.values r.Header ck := by
  induction cookies generalizing r with
  | nil => rfl
  | cons c rest ih =>
    simp only [List.foldl_cons]
    rw [ih]
    unfold AddCookie
    dsimp only
    split <;>
      (simp only [Header.Set, canonical_cookie]; exact values_put_other _ _ _ _ hne)

/-- The values `setHeader` leaves in a request whose header map was empty. -/
theorem setHeader_values (req : Request) (needWapUserAgent : Bool) (ck : String)
    (hempty : req.Header = []) :
    Header.values (setHeader req needWapUserAgent).Header ck
      = defaultValues needWapUserAgent ck := by
  have c1 : CanonicalMIMEHeaderKey "Connection" = "Connection" := by decide
  have c2 : CanonicalMIMEHeaderKey "Cache-Control" = "Cache-Control" := by decide
  have c3 : CanonicalMIMEHeaderKey "Accept" = "Accept" := by decide
  have c4 : CanonicalMIMEHeaderKey "Accept-Encoding" = "Accept-Encoding" := by decide
  have c5 : CanonicalMIMEHeaderKey "User-Agent" = "User-Agent" := by decide
  simp only [setHeader, Header.Set, hempty, c1, c2, c3, c4, c5, defaultValues]
  by_cases h5 : ck = "User-Agent"
  · subst h5
    rw [values_put_same]
    simp
  · rw [values_put_other _ _ _ _ h5]
    by_cases h4 : ck = "Accept-Encoding"
    · subst h4
      rw [values_put_same]
      simp
    · rw [values_put_other _ _ _ _ h4]
      by_cases h3 : ck = "Accept"
      · subst h3
        rw [values_put_same]
        simp
      · rw [values_put_other _ _ _ _ h3]
        by_cases h2 : ck = "Cache-Control"
        · subst h2
          rw [values_put_same]
          simp
        · rw [values_put_other _ _ _ _ h2]
          by_cases h1 : ck = "Connection"
          · subst h1
            rw [values_put_same]
            simp
          · rw [values_put_other _ _ _ _ h1]
            simp [Header.values, h1, h2, h3, h4, h5]

/-! ### The reference decoders -/

/-- The reference inflater decodes one final stored block to its payload. -/
theorem inflateStored_single (b trailer : Bytes) (hlen : b.length < 65536) (fuel : Nat) :
    inflateStored (fuel + 1)
      ([1, b.length % 256, b.length / 256, 255 - b.length % 256, 255 - b.length / 256]
        ++ b ++ trailer) []
      = (b, none, trailer) := by
  have h1 : b.length % 256 + 256 * (b.length / 256) = b.length := Nat.mod_add_div _ _
  have h2 : 255 - b.length % 256 + 256 * (255 - b.length / 256) + b.length = 65535 := by
    omega
  simp only [inflateStored, List.cons_append, List.nil_append]
  simp [h1, h2, List.take_left', List.drop_left']

/-- The reference gzip reader decodes `gzipStored b` to `b` without error. -/
theorem refGzipNewReader_gzipStored (b : Bytes) (hlen : b.length < 65536) :
    refGzipNewReader (gzipStored b) = .ok (b, none) := by
  simp only [gzipStored, refGzipNewReader, List.cons_append, List.nil_append, gzipMembers]
  have hblock := inflateStored_single b (le32 (crc32 b) ++ le32 b.length) hlen
  simp only [List.cons_append, List.nil_append, List.append_assoc] at hblock
  simp only [List.append_assoc]
  rw [hblock]
  have h3 : b.length % 4294967296 = b.length := Nat.mod_eq_of_lt (by omega)
  simp [le32, h3]

/-- In the reference world `unGzipHtml` inverts `gzipStored` on every non-empty
payload that fits one stored block. -/
theorem unGzipHtml_gzipStored (b : Bytes) (hb : b ≠ []) (hlen : b.length < 65536) :
    unGzipHtml refWorld (gzipStored b) = b := by
  simp [unGzipHtml, refWorld, refGzipNewReader_gzipStored b hlen, hb]

/-! ### The claims -/

/-- C1: when the step `HttpGet` executes returns a response whose status code is
not 200, the returned `HttpResponse` has empty `Html`, the response's status
code, header map and cookies, and the call never reads the response body. -/
theorem C1_non200_status_header_cookies_no_body_read
    (w : World) (httpUtil : HttpUtil) (url : String) (headers : List (String × String))
    (cookies : List Cookie) (needWapUserAgent needDirect : Bool)
    (request : Request) (response : Response)
    (hreq : HttpGetRequest w url headers cookies needWapUserAgent = .ok request)
    (hdo : (HttpGetExecute w httpUtil request needDirect).1 = .ok response)
    (hstatus : response.StatusCode ≠ 200) :
    (HttpGet w httpUtil url headers cookies needWapUserAgent needDirect).1
        = { Status := response.StatusCode, Html := [],
            Header := some response.Header,
            Cookies := some (w.readSetCookies response.Header) }
      ∧ Event.readBody ∉
          (HttpGet w httpUtil url headers cookies needWapUserAgent needDirect).2 := by
  have hev : (HttpGetExecute w httpUtil request needDirect).2 ≠ Event.readBody := by
    unfold HttpGetExecute
    split <;> simp
  simp [HttpGet, hreq, hdo, hstatus, NewHttpResponse, Ne.symm hev]

/-- C1 at the redirect page of the reference world, fetched by a raw round trip. -/
theorem C1_witness :
    (HttpGet refWorld refUtil "http://a.example/moved" [] [] false false).1
        = { Status := 302, Html := [],
            Header := some [("Location", ["http://a.example/"])],
            Cookies := some [] }
      ∧ Event.readBody ∉
          (HttpGet refWorld refUtil "http://a.example/moved" [] [] false false).2 :=
  C1_non200_status_header_cookies_no_body_read refWorld refUtil "http://a.example/moved"
    [] [] false false
    (refGetRequest "http://a.example/moved" "a.example")
    { StatusCode := 302, Header := [("Location", ["http://a.example/"])],
      Body := [60, 97, 62], BodyErr := none }
    (by decide) (by decide) (by decide)

/-- C2: a `HttpGet` call that obtains no response returns a response with empty
`Html`, nil `Header` and nil `Cookies`; its `Status` is 1004 (`KNewRequestErr`)
when `http.NewRequest` fails and 1005 (`KDoRequestErr`) when the executed step
returns an error, for either value of `needDirect`. -/
theorem C2_no_response_sentinel_status
    (w : World) (httpUtil : HttpUtil) (url : String) (headers : List (String × String))
    (cookies : List Cookie) (needWapUserAgent needDirect : Bool) :
    (∀ e, NewRequest w "GET" url none = .error e →
      (HttpGet w httpUtil url headers cookies needWapUserAgent needDirect).1
        = { Status := 1004, Html := [], Header := none, Cookies := none })
    ∧ (∀ request msg response,
        HttpGetRequest w url headers cookies needWapUserAgent = .ok request →
        (HttpGetExecute w httpUtil request needDirect).1 = .err msg response →
        (HttpGet w httpUtil url headers cookies needWapUserAgent needDirect).1
          = { Status := 1005, Html := [], Header := none, Cookies := none }) := by
  constructor
  · intro e he
    simp [HttpGet, HttpGetRequest, he, NewHttpResponse, KNewRequestErr]
  · intro request msg response hreq hdo
    simp [HttpGet, hreq, hdo, NewHttpResponse, KDoRequestErr]

/-- C2 in the reference world: a URL that does not parse, and a refused
connection in both execution modes. -/
theorem C2_witness :
    (HttpGet refWorld refUtil "://bad" [] [] false false).1
        = { Status := 1004, Html := [], Header := none, Cookies := none }
    ∧ (HttpGet refWorld refUtil "http://down.example/" [] [] false true).1
        = { Status := 1005, Html := [], Header := none, Cookies := none }
    ∧ (HttpGet refWorld refUtil "http://down.example/" [] [] false false).1
        = { Status := 1005, Html := [], Header := none, Cookies := none } :=
  ⟨(C2_no_response_sentinel_status refWorld refUtil "://bad" [] [] false false).1
      "missing protocol scheme" (by decide),
    (C2_no_response_sentinel_status refWorld refUtil "http://down.example/" [] [] false true).2
      (refGetRequest "http://down.example/" "down.example")
      "dial tcp: connection refused" none (by decide) (by decide),
    (C2_no_response_sentinel_status refWorld refUtil "http://down.example/" [] [] false false).2
      (refGetRequest "http://down.example/" "down.example")
      "dial tcp: connection refused" none (by decide) (by decide)⟩

/-- C3: for a response with status code 200 whose body read fails, `HttpGet`
returns `Status` 1001 (`KReadTimeOut`) and `HttpPost` returns `Status` 200; both
return empty `Html` (the bytes read before the failure are dropped) together
with the header and cookies of the response. -/
theorem C3_body_read_failure_get_1001_post_200
    (w : World) (httpUtil : HttpUtil) (url : String)
    (headers postData : List (String × String)) (cookies : List Cookie)
    (needWapUserAgent needDirect : Bool) (response : Response) (e : String)
    (hstatus : response.StatusCode = 200) (hread : response.BodyErr = some e) :
    (∀ request, HttpGetRequest w url headers cookies needWapUserAgent = .ok request →
      (HttpGetExecute w httpUtil request needDirect).1 = .ok response →
      (HttpGet w httpUtil url headers cookies needWapUserAgent needDirect).1
        = { Status := 1001, Html := [], Header := some response.Header,
            Cookies := some (w.readSetCookies response.Header) })
    ∧ (∀ reqest, HttpPostRequest w url headers postData cookies needWapUserAgent = .ok reqest →
      w.clientDo httpUtil.client reqest = .ok response →
      (HttpPost w httpUtil url headers postData cookies needWapUserAgent).1
        = { Status := 200, Html := [], Header := some response.Header,
            Cookies := some (w.readSetCookies response.Header) }) := by
  constructor
  · intro request hreq hdo
    simp [HttpGet, hreq, hdo, hstatus, hread, NewHttpResponse, KReadTimeOut]
  · intro reqest hreq hdo
    simp [HttpPost, hreq, hdo, hstatus, hread, NewHttpResponse]

/-- C3 in the reference world: the page `/slow` delivers two bytes and then
times out. -/
theorem C3_witness :
    (HttpGet refWorld refUtil "http://a.example/slow" [] [] false false).1
        = { Status := 1001, Html := [], Header := some [("Content-Type", ["text/html"])],
            Cookies := some [] }
    ∧ (HttpPost refWorld refUtil "http://a.example/slow" [] [] [] false).1
        = { Status := 200, Html := [], Header := some [("Content-Type", ["text/html"])],
            Cookies := some [] } :=
  ⟨(C3_body_read_failure_get_1001_post_200 refWorld refUtil "http://a.example/slow" [] [] []
        false false
        { StatusCode := 200, Header := [("Content-Type", ["text/html"])],
          Body := [60, 104], BodyErr := some "i/o timeout" } "i/o timeout" rfl rfl).1
      (refGetRequest "http://a.example/slow" "a.example")
      (by decide) (by decide),
    (C3_body_read_failure_get_1001_post_200 refWorld refUtil "http://a.example/slow" [] [] []
        false false
        { StatusCode := 200, Header := [("Content-Type", ["text/html"])],
          Body := [60, 104], BodyErr := some "i/o timeout" } "i/o timeout" rfl rfl).2
      { setHeader { Method := "POST",
                    URL := { Raw := "http://a.example/slow", Host := "a.example" },
                    Host := "a.example", Header := [], Body := some "" } false with
        Header := Header.Set
          (setHeader { Method := "POST",
                       URL := { Raw := "http://a.example/slow", Host := "a.example" },
                       Host := "a.example", Header := [], Body := some "" } false).Header
          "Content-Type" "application/x-www-form-urlencoded; param=value" }
      (by decide) (by decide)⟩

/-- C4 as amended: `needDirect` set makes `HttpGet` execute the request through
the full client pipeline (`client.Do`) and never through a raw round trip;
`needDirect` not set makes it execute one raw `Transport.RoundTrip` and never
`client.Do`.  In both modes the call's result is computed from that step alone. -/
theorem C4_needDirect_true_is_clientDo_false_is_roundTrip
    (w : World) (httpUtil : HttpUtil) (url : String) (headers : List (String × String))
    (cookies : List Cookie) (needWapUserAgent : Bool) (request : Request)
    (hreq : HttpGetRequest w url headers cookies needWapUserAgent = .ok request) :
    (HttpGetExecute w httpUtil request true).1 = w.clientDo httpUtil.client request
    ∧ (HttpGet w httpUtil url headers cookies needWapUserAgent true).2.head?
        = some (Event.clientDo httpUtil.client request)
    ∧ (∀ t r, Event.roundTrip t r ∉
        (HttpGet w httpUtil url headers cookies needWapUserAgent true).2)
    ∧ (HttpGetExecute w httpUtil request false).1
        = w.roundTrip httpUtil.client.Transport request
    ∧ (HttpGet w httpUtil url headers cookies needWapUserAgent false).2.head?
        = some (Event.roundTrip httpUtil.client.Transport request)
    ∧ (∀ c r, Event.clientDo c r ∉
        (HttpGet w httpUtil url headers cookies needWapUserAgent false).2) := by
  refine ⟨rfl, ?_, ?_, rfl, ?_, ?_⟩
  · simp only [HttpGet, hreq, HttpGetExecute, if_true]
    cases w.clientDo httpUtil.client request with
    | ok response =>
      dsimp only
      split
      · rfl
      · split <;> rfl
    | err msg response => rfl
  · intro t r
    simp only [HttpGet, hreq, HttpGetExecute, if_true]
    cases w.clientDo httpUtil.client request with
    | ok response =>
      dsimp only
      split
      · simp
      · split <;> simp
    | err msg response => cases response <;> simp [deferredClose]
  · simp only [HttpGet, hreq, HttpGetExecute, Bool.false_eq_true, if_false]
    cases w.roundTrip httpUtil.client.Transport request with
    | ok response =>
      dsimp only
      split
      · rfl
      · split <;> rfl
    | err msg response => rfl
  · intro c r
    simp only [HttpGet, hreq, HttpGetExecute, Bool.false_eq_true, if_false]
    cases w.roundTrip httpUtil.client.Transport request with
    | ok response =>
      dsimp only
      split
      · simp
      · split <;> simp
    | err msg response => cases response <;> simp [deferredClose]

/-- C4 as amended, at the redirect page of the reference world. -/
theorem C4_witness :
    (HttpGetExecute refWorld refUtil (refGetRequest "http://a.example/moved" "a.example") true).1
        = refWorld.clientDo refUtil.client (refGetRequest "http://a.example/moved" "a.example")
    ∧ (HttpGet refWorld refUtil "http://a.example/moved" [] [] false true).2.head?
        = some (Event.clientDo refUtil.client
            (refGetRequest "http://a.example/moved" "a.example"))
    ∧ (∀ t r, Event.roundTrip t r ∉
        (HttpGet refWorld refUtil "http://a.example/moved" [] [] false true).2)
    ∧ (HttpGetExecute refWorld refUtil (refGetRequest "http://a.example/moved" "a.example")
          false).1
        = refWorld.roundTrip refUtil.client.Transport
            (refGetRequest "http://a.example/moved" "a.example")
    ∧ (HttpGet refWorld refUtil "http://a.example/moved" [] [] false false).2.head?
        = some (Event.roundTrip refUtil.client.Transport
            (refGetRequest "http://a.example/moved" "a.example"))
    ∧ (∀ c r, Event.clientDo c r ∉
        (HttpGet refWorld refUtil "http://a.example/moved" [] [] false false).2) :=
  C4_needDirect_true_is_clientDo_false_is_roundTrip refWorld refUtil "http://a.example/moved"
    [] [] false (refGetRequest "http://a.example/moved" "a.example") (by decide)

/-- C4 as stated fails: with the flag set, the fetch of the redirect page runs
`client.Do`, which follows the redirect and delivers the target page (status
200); with the flag not set it runs one raw round trip, which hands back the
redirect itself (status 302). -/
theorem C4_counterexample :
    (HttpGet refWorld refUtil "http://a.example/moved" [] [] false true).2
        = [Event.clientDo refUtil.client (refGetRequest "http://a.example/moved" "a.example"),
            Event.readBody, Event.closeBody]
    ∧ (HttpGet refWorld refUtil "http://a.example/moved" [] [] false true).1.Status = 200
    ∧ (HttpGet refWorld refUtil "http://a.example/moved" [] [] false false).2
        = [Event.roundTrip refUtil.client.Transport
              (refGetRequest "http://a.example/moved" "a.example"),
            Event.closeBody]
    ∧ (HttpGet refWorld refUtil "http://a.example/moved" [] [] false false).1.Status = 302 := by
  decide

/-- C10: for every `HttpGet` call the returned `Html` is non-empty exactly when the
returned `Status` is 200; a 200 response whose body is empty after the gzip
and deflate stages is returned with `Status` 1003 (`KUpexpectedErr`) and
empty `Html`; every other status comes with empty `Html`. -/
theorem C10_html_nonempty_iff_status_200
    (w : World) (httpUtil : HttpUtil) (url : String) (headers : List (String × String))
    (cookies : List Cookie) (needWapUserAgent needDirect : Bool) :
    ((HttpGet w httpUtil url headers cookies needWapUserAgent needDirect).1.Html ≠ []
      ↔ (HttpGet w httpUtil url headers cookies needWapUserAgent needDirect).1.Status = 200)
    ∧ (∀ request response,
        HttpGetRequest w url headers cookies needWapUserAgent = .ok request →
        (HttpGetExecute w httpUtil request needDirect).1 = .ok response →
        response.StatusCode = 200 → response.BodyErr = none →
        decompress w response response.Body = [] →
        (HttpGet w httpUtil url headers cookies needWapUserAgent needDirect).1.Status = 1003
        ∧ (HttpGet w httpUtil url headers cookies needWapUserAgent needDirect).1.Html = [])
    ∧ ((HttpGet w httpUtil url headers cookies needWapUserAgent needDirect).1.Status ≠ 200 →
        (HttpGet w httpUtil url headers cookies needWapUserAgent needDirect).1.Html = []) := by
  have key : (HttpGet w httpUtil url headers cookies needWapUserAgent needDirect).1.Html ≠ []
      ↔ (HttpGet w httpUtil url headers cookies needWapUserAgent needDirect).1.Status = 200 := by
    unfold HttpGet
    cases hreq : HttpGetRequest w url headers cookies needWapUserAgent with
    | error e => simp [NewHttpResponse, KNewRequestErr]
    | ok request =>
      dsimp only
      cases hdo : (HttpGetExecute w httpUtil request needDirect).1 with
      | err msg response => simp [NewHttpResponse, KDoRequestErr]
      | ok response =>
        dsimp only
        by_cases hs : response.StatusCode = 200
        · cases hb : response.BodyErr with
          | some e => simp [hs, NewHttpResponse, KReadTimeOut]
          | none =>
            by_cases hd : decompress w response response.Body = []
            · simp [hs, hd, NewHttpResponse, KUpexpectedErr]
            · simp [hs, hd, NewHttpResponse]
        · simp [hs, NewHttpResponse]
  refine ⟨key, ?_, ?_⟩
  · intro request response hreq hdo hs hb hd
    simp [HttpGet, hreq, hdo, hs, hb, hd, NewHttpResponse, KUpexpectedErr]
  · intro hne
    by_contra h
    exact hne (key.mp h)

/-- C10 in the reference world: the page `/empty` answers 200 with no body. -/
theorem C10_witness :
    (HttpGet refWorld refUtil "http://a.example/empty" [] [] false false).1.Status = 1003
    ∧ (HttpGet refWorld refUtil "http://a.example/empty" [] [] false false).1.Html = [] :=
  (C10_html_nonempty_iff_status_200 refWorld refUtil "http://a.example/empty" [] [] false
      false).2.1
    (refGetRequest "http://a.example/empty" "a.example")
    { StatusCode := 200, Header := [], Body := [], BodyErr := none }
    (by decide) (by decide) rfl rfl (by decide)

/-- C5 as amended: for every non-empty byte sequence `b`, `unGzipHtml` applied to
a valid gzip compression of `b` (a stream the gzip reader decodes to `b` with
no error) returns exactly `b`. -/
theorem C5_unGzipHtml_roundtrip_nonempty (w : World) (z b : Bytes)
    (hvalid : w.gzipNewReader z = .ok (b, none)) (hb : b ≠ []) :
    unGzipHtml w z = b := by
  simp [unGzipHtml, hvalid, hb]

/-- C5 as amended, at the gzip stream of the five bytes of `hello`. -/
theorem C5_witness :
    unGzipHtml refWorld (gzipStored [104, 101, 108, 108, 111]) = [104, 101, 108, 108, 111] :=
  C5_unGzipHtml_roundtrip_nonempty refWorld (gzipStored [104, 101, 108, 108, 111])
    [104, 101, 108, 108, 111] (by decide) (by decide)

/-- C5 as stated fails at the empty sequence: its gzip compression (23 bytes)
decodes to no bytes without error, and `unGzipHtml` hands back the 23
compressed bytes instead of the empty sequence. -/
theorem C5_counterexample :
    gzipStored []
        = [31, 139, 8, 0, 0, 0, 0, 0, 0, 255, 1, 0, 0, 255, 255, 0, 0, 0, 0, 0, 0, 0, 0]
    ∧ refWorld.gzipNewReader (gzipStored []) = .ok ([], none)
    ∧ unGzipHtml refWorld (gzipStored []) = gzipStored []
    ∧ unGzipHtml refWorld (gzipStored []) ≠ [] := by
  decide

/-- C6 as amended: when `gzip.NewReader` rejects the header, or reading the
stream fails before any byte was decoded, `unGzipHtml` returns the input
unchanged; when reading fails after some bytes were decoded, it returns those
decoded bytes. -/
theorem C6_unGzipHtml_on_decode_error (w : World) (html : Bytes) :
    (∀ e, w.gzipNewReader html = .error e → unGzipHtml w html = html)
    ∧ (∀ e, w.gzipNewReader html = .ok ([], some e) → unGzipHtml w html = html)
    ∧ (∀ content e, w.gzipNewReader html = .ok (content, some e) → content ≠ [] →
        unGzipHtml w html = content) := by
  refine ⟨?_, ?_, ?_⟩
  · intro e h
    simp [unGzipHtml, h]
  · intro e h
    simp [unGzipHtml, h]
  · intro content e h hc
    simp [unGzipHtml, h, hc]

/-- C6 as amended in the reference world: a rejected header, a stream cut right
after the header, and a stream failing its checksum after two decoded bytes. -/
theorem C6_witness :
    unGzipHtml refWorld [60, 104, 62] = [60, 104, 62]
    ∧ unGzipHtml refWorld [0x1f, 0x8b, 8, 0, 0, 0, 0, 0, 0, 0xff]
        = [0x1f, 0x8b, 8, 0, 0, 0, 0, 0, 0, 0xff]
    ∧ unGzipHtml refWorld gzipBadChecksum = [104, 105] :=
  ⟨(C6_unGzipHtml_on_decode_error refWorld [60, 104, 62]).1 "gzip: invalid header"
      (by decide),
    (C6_unGzipHtml_on_decode_error refWorld [0x1f, 0x8b, 8, 0, 0, 0, 0, 0, 0, 0xff]).2.1
      "unexpected EOF" (by decide),
    (C6_unGzipHtml_on_decode_error refWorld gzipBadChecksum).2.2 [104, 105]
      "gzip: invalid checksum" (by decide) (by decide)⟩

/-- C6 as stated fails: on a stream that fails its checksum after two bytes were
decoded, `unGzipHtml` returns the two decoded bytes, not the input. -/
theorem C6_counterexample :
    refWorld.gzipNewReader gzipBadChecksum = .ok ([104, 105], some "gzip: invalid checksum")
    ∧ unGzipHtml refWorld gzipBadChecksum = [104, 105]
    ∧ unGzipHtml refWorld gzipBadChecksum ≠ gzipBadChecksum := by
  decide

/-- C7 as amended: on an input that does not start with `0x78 0x9c` and on which
inflating yields zero decoded bytes (with or without an error), `deflate`
returns the input unchanged; when inflating the input (after the prefix strip)
fails after decoding some bytes, `deflate` returns those decoded bytes. -/
theorem C7_deflate_fallback (w : World) (html : Bytes) :
    (∀ err, ¬ ([0x78, 0x9c] <+: html) → w.flateReadAll html = ([], err) →
      deflate w html = html)
    ∧ (∀ enflated e, w.flateReadAll (trimZlibPrefix html) = (enflated, some e) →
        enflated ≠ [] → deflate w html = enflated) := by
  constructor
  · intro err hp h
    have ht : trimZlibPrefix html = html := by
      unfold trimZlibPrefix
      split
      · exact absurd (List.prefix_append [0x78, 0x9c] _) hp
      · rfl
    simp [deflate, ht, h]
  · intro enflated e h hne
    simp [deflate, h, hne]

/-- C7 as amended in the reference world: a byte that opens a block of the
reserved type, and a stored block of two bytes that is not followed by a final
block. -/
theorem C7_witness :
    deflate refWorld [7] = [7]
    ∧ deflate refWorld [0, 2, 0, 253, 255, 65, 66] = [65, 66] :=
  ⟨(C7_deflate_fallback refWorld [7]).1 (some "flate: corrupt input") (by decide) (by decide),
    (C7_deflate_fallback refWorld [0, 2, 0, 253, 255, 65, 66]).2 [65, 66] "unexpected EOF"
      (by decide) (by decide)⟩

/-- C7 as stated fails twice: on `0x78 0x9c 0x07`, where inflating fails with no
decoded byte, `deflate` returns the input without its two leading bytes; on a
stream failing after two decoded bytes it returns the decoded bytes. -/
theorem C7_counterexample :
    (refWorld.flateReadAll [7] = ([], some "flate: corrupt input")
      ∧ deflate refWorld [0x78, 0x9c, 7] = [7]
      ∧ deflate refWorld [0x78, 0x9c, 7] ≠ [0x78, 0x9c, 7])
    ∧ (refWorld.flateReadAll [0, 2, 0, 253, 255, 65, 66] = ([65, 66], some "unexpected EOF")
      ∧ deflate refWorld [0, 2, 0, 253, 255, 65, 66] = [65, 66]
      ∧ deflate refWorld [0, 2, 0, 253, 255, 65, 66] ≠ [0, 2, 0, 253, 255, 65, 66]) := by
  decide

/-- C8, where the code departs from it: for a proxy string that fails URL parsing,
`NewHttpClientWithProxy` and `NewHttpUtilWithProxy` return nil, while
`NewNoRedirectHttpClientWithProxy` assigns to a field of the nil client and
panics. -/
theorem C8_malformed_proxy_nil_nil_panic (w : World) (timeOutSeconds : Int)
    (proxy e : String) (hparse : w.urlParse proxy = .error e) :
    NewHttpClientWithProxy w timeOutSeconds proxy = none
    ∧ NewHttpUtilWithProxy w proxy timeOutSeconds = none
    ∧ NewNoRedirectHttpClientWithProxy w timeOutSeconds proxy
        = .error GoPanic.nilPointerDereference := by
  have h : NewHttpClientWithProxy w timeOutSeconds proxy = none := by
    simp [NewHttpClientWithProxy, hparse]
  refine ⟨h, ?_, ?_⟩
  · simp [NewHttpUtilWithProxy, h]
  · simp [NewNoRedirectHttpClientWithProxy, h]

/-- C8 at the proxy string `://bad-proxy`, whose scheme is missing. -/
theorem C8_witness :
    NewHttpClientWithProxy refWorld 10 "://bad-proxy" = none
    ∧ NewHttpUtilWithProxy refWorld "://bad-proxy" 10 = none
    ∧ NewNoRedirectHttpClientWithProxy refWorld 10 "://bad-proxy"
        = .error GoPanic.nilPointerDereference :=
  C8_malformed_proxy_nil_nil_panic refWorld 10 "://bad-proxy" "missing protocol scheme"
    (by decide)

/-- C9 as amended: for a caller header map whose keys are pairwise distinct after
canonicalisation and an entry `(k, v)` of it, provided no cookie is attached
to the call or the canonical form of `k` is not `Cookie`: the request `HttpGet`
builds carries under `k` the default value of `setHeader` (when `k` is one of
its five keys) followed by `v`, and the request `HttpPost` builds carries
exactly `[v]`. -/
theorem C9_get_adds_post_overwrites
    (w : World) (url : String) (headers postData : List (String × String))
    (cookies : List Cookie) (needWapUserAgent : Bool) (u : URL) (k v : String)
    (hurl : w.urlParse url = .ok u)
    (hdistinct : (headers.map (fun kv => CanonicalMIMEHeaderKey kv.1)).Nodup)
    (hmem : (k, v) ∈ headers)
    (hcookie : cookies = [] ∨ CanonicalMIMEHeaderKey k ≠ "Cookie") :
    (∃ request, HttpGetRequest w url headers cookies needWapUserAgent = .ok request
      ∧ Header.values request.Header (CanonicalMIMEHeaderKey k)
          = defaultValues needWapUserAgent (CanonicalMIMEHeaderKey k) ++ [v])
    ∧ (∃ reqest, HttpPostRequest w url headers postData cookies needWapUserAgent = .ok reqest
      ∧ Header.values reqest.Header (CanonicalMIMEHeaderKey k) = [v]) := by
  have hck : ∀ r : Request,
      Header.values (cookies.foldl (AddCookie w) r).Header (CanonicalMIMEHeaderKey k)
        = Header.values r.Header (CanonicalMIMEHeaderKey k) := by
    intro r
    rcases hcookie with hnil | hne
    · rw [hnil]
      rfl
    · exact addCookie_other w cookies r _ hne
  constructor
  · refine ⟨_, by simp only [HttpGetRequest, NewRequest, hurl]; rfl, ?_⟩
    rw [hck, get_loop_header, fold_add_entry headers _ k v hdistinct hmem,
      setHeader_values _ _ _ rfl]
  · refine ⟨_, by simp only [HttpPostRequest, NewRequest, hurl]; rfl, ?_⟩
    rw [hck, post_loop_header, fold_set_entry headers _ k v hdistinct hmem]

/-- C9 as amended in the reference world: the caller sends `accept` and `X-Token`,
and one cookie is attached. -/
theorem C9_witness :
    (∃ request,
      HttpGetRequest refWorld "http://a.example/" [("accept", "text/plain"), ("X-Token", "t")]
          [refCookie] false = .ok request
      ∧ Header.values request.Header (CanonicalMIMEHeaderKey "accept")
          = defaultValues false (CanonicalMIMEHeaderKey "accept") ++ ["text/plain"])
    ∧ (∃ reqest,
      HttpPostRequest refWorld "http://a.example/" [("accept", "text/plain"), ("X-Token", "t")]
          [] [refCookie] false = .ok reqest
      ∧ Header.values reqest.Header (CanonicalMIMEHeaderKey "accept") = ["text/plain"]) :=
  C9_get_adds_post_overwrites refWorld "http://a.example/"
    [("accept", "text/plain"), ("X-Token", "t")] [] [refCookie] false
    { Raw := "http://a.example/", Host := "a.example" } "accept" "text/plain"
    (by decide) (by decide) (by decide) (Or.inr (by decide))

/-- C9 as stated fails for the key `Cookie` when a cookie is attached: the caller's
entry `("Cookie", "a=1")` and the cookie `b=2` end in the single value
`a=1; b=2`, in the GET request and in the POST request alike. -/
theorem C9_counterexample :
    (∃ request,
      HttpGetRequest refWorld "http://a.example/" [("Cookie", "a=1")] [refCookie] false
          = .ok request
      ∧ Header.values request.Header (CanonicalMIMEHeaderKey "Cookie") = ["a=1; b=2"]
      ∧ Header.values request.Header (CanonicalMIMEHeaderKey "Cookie")
          ≠ defaultValues false (CanonicalMIMEHeaderKey "Cookie") ++ ["a=1"])
    ∧ (∃ reqest,
      HttpPostRequest refWorld "http://a.example/" [("Cookie", "a=1")] [] [refCookie] false
          = .ok reqest
      ∧ Header.values reqest.Header (CanonicalMIMEHeaderKey "Cookie") = ["a=1; b=2"]
      ∧ Header.values reqest.Header (CanonicalMIMEHeaderKey "Cookie") ≠ ["a=1"]) := by
  refine ⟨⟨_, rfl, by decide, by decide⟩, ⟨_, rfl, by decide, by decide⟩⟩

end Httputil
